import Mathlib

/-!
Verification of the access-arbitration core of `src/streamlit_app.py`.

The source keeps three pieces of shared state in files:
  * the lock file (`LOCK_FILE`), whose entire content is one ISO timestamp
    written by `acquire_lock` — note it stores NO holder identity;
  * the queue file (`QUEUE_FILE`), a JSON list of user-id strings;
  * streamlit per-session state (`st.session_state`).

We embed them shallowly: timestamps are `Nat` seconds, the lock file is
`Option Nat` (content parsed) or `Option String` (raw content, for the
model that tracks parse failures), the queue is `List String`, and a
session is a structure mirroring the `st.session_state` keys used by
`main`.
-/

/-- `LOCK_TIMEOUT = 300` seconds (streamlit_app.py line 20). -/
def LOCK_TIMEOUT : Nat := 300

/-- Serialized (atomic) embedding of `acquire_lock` (lines 55-74), assuming
the lock file content parses.  State is the parsed lock-file timestamp
(`none` = no lock file).  The code: if the file exists, read its time; if
`now > lock_time + LOCK_TIMEOUT` remove it and fall through to the write,
otherwise return `False`; then write `now` and return `True`. -/
def acquire_lockS (lock : Option Nat) (now : Nat) : Bool × Option Nat :=
  match lock with
  | some t =>
    if now > t + LOCK_TIMEOUT then (true, some now)
    else (false, some t)
  | none => (true, some now)

/-- Serialized embedding of `release_lock` (lines 76-83): if the lock file
exists, remove it; otherwise do nothing.  The function takes no
participant argument and performs no holder check. -/
def release_lockS (lock : Option Nat) : Option Nat :=
  match lock with
  | some _ => none
  | none => none

/-- A lock-file timestamp `t0` is still valid (not expired) at time `now`
exactly when the code's expiry test `now > t0 + LOCK_TIMEOUT` fails. -/
def lockValid (t0 now : Nat) : Bool :=
  decide (now ≤ t0 + LOCK_TIMEOUT)

-- After a successful serialized acquire at time `t`, the lock state is
-- `some t`.
theorem acquire_lockS_success_state (lock : Option Nat) (t : Nat)
    (h : (acquire_lockS lock t).fst = true) :
    (acquire_lockS lock t).snd = some t := by
  unfold acquire_lockS at *
  cases lock with
  | none => rfl
  | some t0 =>
    by_cases ht : t > t0 + LOCK_TIMEOUT
    · simp [ht]
    · simp [ht] at h

/-- C2 (amended): with an existing lock-file timestamp `t0`, a serialized
`acquire_lock` at time `t` is granted (and rewrites the timestamp to `t`)
exactly when `t > t0 + LOCK_TIMEOUT`, and is denied (leaving the lock
unchanged) whenever `t ≤ t0 + LOCK_TIMEOUT`; in particular the attempt at
`t = t0 + LOCK_TIMEOUT` exactly is denied, not granted. -/
theorem acquire_lock_expiry_boundary (t0 t : Nat) :
    (t > t0 + LOCK_TIMEOUT → acquire_lockS (some t0) t = (true, some t)) ∧
    (t ≤ t0 + LOCK_TIMEOUT → acquire_lockS (some t0) t = (false, some t0)) := by
  constructor
  · intro h
    simp [acquire_lockS, h]
  · intro h
    simp [acquire_lockS, Nat.not_lt.mpr h]

/-- Witness for C2 (amended) at `t0 = 0`: the attempt at `t = 301` is
granted and the attempt at `t = 300 = t0 + LOCK_TIMEOUT` is denied. -/
theorem acquire_lock_expiry_boundary_witness :
    acquire_lockS (some 0) 301 = (true, some 301) ∧
    acquire_lockS (some 0) 300 = (false, some 0) :=
  ⟨(acquire_lock_expiry_boundary 0 301).1 (by decide),
   (acquire_lock_expiry_boundary 0 300).2 (by decide)⟩

/-- C2 counterexample: the claim says an attempt by another participant at
any `t ≥ t0 + T` succeeds, but at `t = t0 + LOCK_TIMEOUT` exactly
(here `t0 = 0`, `t = 300`) the code's strict comparison
`now > lock_time + LOCK_TIMEOUT` fails, so `acquire_lock` returns `False`
(denied) and leaves the lock in place. -/
theorem acquire_lock_at_exact_expiry_denied :
    (acquire_lockS (some 0) (0 + LOCK_TIMEOUT)).fst = false ∧
    (acquire_lockS (some 0) (0 + LOCK_TIMEOUT)).snd = some 0 := by
  decide

/-- C3 (amended): `release_lock` takes no participant argument and
removes the lock file unconditionally whenever it exists; the resulting
state is always `none`, for every caller and every lock state, and no
`NotHolder` outcome exists in the code. -/
theorem release_lock_unconditional (lock : Option Nat) :
    release_lockS lock = none := by
  cases lock <;> rfl

/-- C3 counterexample: a lease written at time 0 is still valid at time 10
(`10 ≤ 0 + LOCK_TIMEOUT`), yet a `release_lock` call — which the source
cannot attribute to any participant, so in particular one made by a
non-holder — removes it, and an immediately following `acquire_lock` by
that other participant is granted. -/
theorem release_lock_removes_other_lease :
    release_lockS (some 0) = none ∧
    (10 ≤ 0 + LOCK_TIMEOUT) ∧
    (acquire_lockS (release_lockS (some 0)) 10).fst = true := by
  decide

/-- C4 (amended): the lock file stores no holder identity, so while a
non-expired lock exists (`t ≤ t0 + LOCK_TIMEOUT`) `acquire_lock` returns
`False` for every caller — including the participant that wrote the lock —
and `acquired_at` is not updated; the code has no `Renewed` outcome. -/
theorem acquire_lock_no_renewal (t0 t : Nat) (h : t ≤ t0 + LOCK_TIMEOUT) :
    acquire_lockS (some t0) t = (false, some t0) := by
  simp [acquire_lockS, Nat.not_lt.mpr h]

/-- Witness for C4 (amended): a valid lock written at time 0 denies an
acquire at time 10 and keeps `acquired_at = 0`. -/
theorem acquire_lock_no_renewal_witness :
    acquire_lockS (some 0) 10 = (false, some 0) :=
  acquire_lock_no_renewal 0 10 (by decide)

/-- C4 counterexample: participant A acquires at time 0 (granted, lock
timestamp 0); the same participant A re-acquires at time 10 while its own
lease is valid — the claim says this succeeds as `Renewed` with
`acquired_at` updated to 10, but the code returns `False` and leaves
`acquired_at = 0`. -/
theorem acquire_lock_holder_reacquire_denied :
    acquire_lockS none 0 = (true, some 0) ∧
    acquire_lockS (some 0) 10 = (false, some 0) := by
  decide

/-!
Interleaved execution of `acquire_lock`.

The source performs a plain read (`os.path.exists` + `open` + compare),
possibly an `os.remove`, and then a separate `open(..., "w")` write; these
are distinct system calls, so two processes can interleave between the
check and the write.  We model each process's `acquire_lock` run as two
atomic phases — the whole check/remove phase, then the write phase — which
is strictly coarser than the real system-call granularity, so any
violation exhibited here is also a violation of the real code.
-/

/-- Program counter of one process running `acquire_lock`:
`start` = about to run the exists/read/compare/remove block,
`ready` = past the block, about to write the lock file,
`done r` = returned `r`. -/
inductive Phase where
  | start : Phase
  | ready : Phase
  | done : Bool → Phase
deriving DecidableEq, Repr

/-- One atomic phase of `acquire_lock` executed by a process whose clock
reads `now`, against the shared lock-file state; returns the new shared
state and the process's new phase. -/
def stepProc (now : Nat) (lock : Option Nat) : Phase → Option Nat × Phase
  | .start =>
    match lock with
    | none => (none, .ready)
    | some t =>
      if now > t + LOCK_TIMEOUT then (none, .ready)
      else (some t, .done false)
  | .ready => (some now, .done true)
  | .done r => (lock, .done r)

/-- Shared lock-file state plus the phases of two processes A and B
racing through `acquire_lock`. -/
structure IConfig where
  lock : Option Nat
  pA : Phase
  pB : Phase
deriving DecidableEq, Repr

/-- Run a schedule (a list of process choices, `true` = step A,
`false` = step B) over an interleaved configuration; `tA`, `tB` are the
times at which A's and B's calls execute. -/
def runSched (tA tB : Nat) : IConfig → List Bool → IConfig
  | c, [] => c
  | c, pid :: rest =>
    if pid then
      let s := stepProc tA c.lock c.pA
      runSched tA tB { c with lock := s.fst, pA := s.snd } rest
    else
      let s := stepProc tB c.lock c.pB
      runSched tA tB { c with lock := s.fst, pB := s.snd } rest

/-- C1 counterexample: with no lock present, processes A and B both call
`acquire_lock` at time 0 under the schedule "A checks, B checks, A
writes, B writes": both return `True`, so two distinct participants hold
simultaneously valid leases at time 0 — the read-then-write sequence in
the source is not atomic and mutual exclusion fails under interleaving. -/
theorem acquire_lock_race_two_grants :
    runSched 0 0 ⟨none, .start, .start⟩ [true, false, true, false] =
      ⟨some 0, .done true, .done true⟩ ∧
    lockValid 0 0 = true := by
  decide

/-- C1 (amended): when each `acquire_lock` call executes atomically
(serialized, no interleaving), two consecutive successful acquisitions
with no intervening release are separated by more than `LOCK_TIMEOUT`, so
the first lease has already expired when the second is granted and no two
valid leases coexist; the non-atomic read-then-write of the source
forfeits this under concurrent interleaving (see the counterexample). -/
theorem acquire_lock_serialized_exclusion (lock : Option Nat) (t1 t2 : Nat)
    (h1 : (acquire_lockS lock t1).fst = true)
    (h2 : (acquire_lockS (acquire_lockS lock t1).snd t2).fst = true) :
    t2 > t1 + LOCK_TIMEOUT := by
  have hs : (acquire_lockS lock t1).snd = some t1 :=
    acquire_lockS_success_state lock t1 h1
  rw [hs] at h2
  unfold acquire_lockS at h2
  by_cases ht : t2 > t1 + LOCK_TIMEOUT
  · exact ht
  · simp [ht] at h2

/-- Witness for C1 (amended): from an empty lock state, a grant at time 0
followed by a second grant at time 301 indeed satisfies
`301 > 0 + LOCK_TIMEOUT`. -/
theorem acquire_lock_serialized_exclusion_witness :
    (301 : Nat) > 0 + LOCK_TIMEOUT :=
  acquire_lock_serialized_exclusion none 0 301 (by decide) (by decide)

/-!
The wait queue (`QUEUE_FILE`): `load_queue`/`save_queue` serialize a JSON
list of user-id strings; `enqueue_user`, `dequeue_user` and
`get_current_user` (lines 34-53) are read-modify-write operations on that
list.  We embed the queue as the `List String` the file contains.
-/

/-- `enqueue_user` (lines 34-39): append `user_id` to the end of the queue
if it is not already present; otherwise leave the queue unchanged. -/
def enqueue_userS (queue : List String) (user_id : String) : List String :=
  if user_id ∈ queue then queue else queue ++ [user_id]

/-- `dequeue_user` (lines 41-48): remove and return the first user of the
queue; on an empty queue return `None` and leave it empty. -/
def dequeue_userS (queue : List String) : Option String × List String :=
  match queue with
  | [] => (none, [])
  | u :: rest => (some u, rest)

/-- `get_current_user` (lines 50-53): the first user of the queue, or
`None` if the queue is empty. -/
def get_current_userS (queue : List String) : Option String :=
  match queue with
  | [] => none
  | u :: _ => some u

/-- A sequence of `enqueue_user` calls, in order. -/
def enqueueAll (queue : List String) (users : List String) : List String :=
  users.foldl enqueue_userS queue

/-- Successive `dequeue_user` calls until the queue is empty, collecting
the returned users in order. -/
def drainQueue : List String → List String
  | [] => []
  | u :: rest =>
    match dequeue_userS (u :: rest) with
    | (none, _) => []
    | (some v, _) => v :: drainQueue rest

-- Enqueueing users none of which is already present appends them in
-- order, provided the users themselves are pairwise distinct.
theorem enqueueAll_append (users : List String) :
    ∀ queue : List String, (∀ u ∈ users, u ∉ queue) → users.Nodup →
      enqueueAll queue users = queue ++ users := by
  induction users with
  | nil => intro queue _ _; simp [enqueueAll]
  | cons u rest ih =>
    intro queue habs hnd
    have hu : u ∉ queue := habs u (List.mem_cons_self u rest)
    have hstep : enqueue_userS queue u = queue ++ [u] := by
      simp [enqueue_userS, hu]
    have hrest : ∀ v ∈ rest, v ∉ queue ++ [u] := by
      intro v hv
      have hvq : v ∉ queue := habs v (List.mem_cons_of_mem u hv)
      have hvu : v ≠ u := by
        intro he
        exact (List.nodup_cons.mp hnd).1 (he ▸ hv)
      simp [List.mem_append, hvq, hvu]
    have hnd' : rest.Nodup := (List.nodup_cons.mp hnd).2
    calc enqueueAll queue (u :: rest)
        = enqueueAll (queue ++ [u]) rest := by
          simp [enqueueAll, List.foldl_cons, hstep]
      _ = (queue ++ [u]) ++ rest := ih (queue ++ [u]) hrest hnd'
      _ = queue ++ u :: rest := by simp

-- Draining a queue via `dequeue_user` returns exactly its elements in
-- order.
theorem drainQueue_eq (queue : List String) : drainQueue queue = queue := by
  induction queue with
  | nil => rfl
  | cons u rest ih => simp [drainQueue, dequeue_userS, ih]

/-- C6: enqueueing pairwise-distinct participants into an empty queue and
then repeatedly dequeueing returns them in exactly the order enqueued; and
enqueueing a participant already present leaves the queue (hence every
position) unchanged. -/
theorem queue_fifo_and_idempotent (users : List String)
    (queue : List String) (u : String)
    (hnd : users.Nodup) (hu : u ∈ queue) :
    drainQueue (enqueueAll [] users) = users ∧
    enqueue_userS queue u = queue := by
  constructor
  · have h : enqueueAll [] users = [] ++ users :=
      enqueueAll_append users [] (by intro v _ hv; cases hv) hnd
    rw [h, List.nil_append, drainQueue_eq]
  · simp [enqueue_userS, hu]

/-- Witness for C6: three distinct users enqueued into an empty queue
drain in order, and re-enqueueing a present user is a no-op. -/
theorem queue_fifo_and_idempotent_witness :
    drainQueue (enqueueAll [] ["a", "b", "c"]) = ["a", "b", "c"] ∧
    enqueue_userS ["a", "b", "c"] "b" = ["a", "b", "c"] :=
  queue_fifo_and_idempotent ["a", "b", "c"] ["a", "b", "c"] "b"
    (by decide) (by decide)

/-!
Reset.  `reset_session` (lines 141-146) calls `release_lock`, deletes
every `st.session_state` key (including `user_id` and `extracted_text`),
and reruns the script.  It never touches the queue file.  On the rerun,
`main` (lines 149-159) finds no `user_id` in session state, generates a
fresh uuid, enqueues it, and compares it with `get_current_user()` — the
head of the queue, which is still the participant's OLD id.
-/

/-- The shared (cross-process) state: the lock file and the queue file. -/
structure GlobalState where
  lock : Option Nat
  queue : List String
deriving DecidableEq, Repr

/-- Effect of `reset_session` (lines 141-146) on the shared state: the
lock is released and the queue file is left untouched (the function only
clears `st.session_state` and reruns). -/
def reset_sessionS (g : GlobalState) : GlobalState :=
  { g with lock := release_lockS g.lock }

/-- Effect of the rerun after a reset (main, lines 149-159): the cleared
session gets a fresh `user_id` (`newId`), which is enqueued; the old id is
still in the queue, so the fresh id lands at the tail behind it. -/
def reset_then_rerun (g : GlobalState) (newId : String) : GlobalState :=
  let g1 := reset_sessionS g
  { g1 with queue := enqueue_userS g1.queue newId }

/-- C5 counterexample: participant A (front of the queue `[A, B, C]`, lock
held) chooses reset; after `reset_session` and the rerun with fresh id
`A2`, the queue is `[A, B, C, A2]` and `get_current_user` is still `A` —
the stale old id — not `B`, contradicting the claim that the next
participant granted the turn is B. -/
theorem reset_next_turn_not_B :
    (reset_then_rerun ⟨some 0, ["A", "B", "C"]⟩ "A2").queue
        = ["A", "B", "C", "A2"] ∧
    get_current_userS (reset_then_rerun ⟨some 0, ["A", "B", "C"]⟩ "A2").queue
        = some "A" ∧
    get_current_userS (reset_then_rerun ⟨some 0, ["A", "B", "C"]⟩ "A2").queue
        ≠ some "B" := by
  decide

/-- C5 (amended): `reset_session` releases the lock and discards the whole
session state (so the old ExtractedDocument is gone), but does not modify
the queue; on the rerun the participant re-enters with a fresh id enqueued
at the tail while its old id stays at the front, so for any queue
`a :: rest` the front after a reset is still the stale `a` — the turn is
never handed to the next waiter. -/
theorem reset_keeps_stale_head (lock : Option Nat) (a : String)
    (rest : List String) (newId : String)
    (hfresh : newId ∉ a :: rest) :
    reset_then_rerun ⟨lock, a :: rest⟩ newId
        = ⟨none, a :: rest ++ [newId]⟩ ∧
    get_current_userS (reset_then_rerun ⟨lock, a :: rest⟩ newId).queue
        = some a := by
  have hq : enqueue_userS (a :: rest) newId = a :: rest ++ [newId] := by
    simp [enqueue_userS, hfresh]
  constructor
  · cases lock <;> simp [reset_then_rerun, reset_sessionS, release_lockS, hq]
  · simp [reset_then_rerun, reset_sessionS, hq, get_current_userS]

/-- Witness for C5 (amended): with queue `[A, B, C]` and fresh id `A2`,
the post-reset state is lock `none`, queue `[A, B, C, A2]`, front `A`. -/
theorem reset_keeps_stale_head_witness :
    reset_then_rerun ⟨some 0, ["A", "B", "C"]⟩ "A2"
        = ⟨none, ["A", "B", "C", "A2"]⟩ ∧
    get_current_userS (reset_then_rerun ⟨some 0, ["A", "B", "C"]⟩ "A2").queue
        = some "A" :=
  reset_keeps_stale_head (some 0) "A" ["B", "C"] "A2" (by decide)

/-!
Extraction.  `extract_text_from_images(images, reader)` (lines 97-108)
builds a Python dict keyed by `image_file.name`; for each image it reads
the bytes (converting HEIC via `convert_heic_to_png` first) and stores
`reader.readtext(image_bytes, detail=0)` — an ordered list of text lines.
Python dicts preserve insertion order; inserting an existing key updates
it in place.  We embed the dict as an association list with exactly that
insert semantics, bytes as `List Nat`, and the opaque collaborators
(`readtext`, HEIC conversion) as function parameters.
-/

/-- An uploaded file as `main` sees it: name, MIME type, raw bytes. -/
structure ImgFile where
  name : String
  mime : String
  data : List Nat
deriving DecidableEq, Repr

/-- The bytes handed to `reader.readtext`: HEIC files go through
`convert_heic_to_png(...).tobytes()` (modelled by the parameter
`convert`), all others are read as-is (lines 100-104). -/
def imageBytes (convert : List Nat → List Nat) (f : ImgFile) : List Nat :=
  if f.mime = "image/heic" then convert f.data else f.data

/-- Python-dict insertion on an insertion-ordered association list:
an existing key is updated in place, a new key is appended. -/
def dictInsert (d : List (String × List String)) (k : String)
    (v : List String) : List (String × List String) :=
  if d.any (fun p => p.fst = k) then
    d.map (fun p => if p.fst = k then (k, v) else p)
  else d ++ [(k, v)]

/-- `extract_text_from_images` (lines 97-108): fold over the submitted
images, inserting `readtext (imageBytes f)` under key `f.name`. -/
def extract_text_from_imagesS (convert : List Nat → List Nat)
    (readtext : List Nat → List String) (images : List ImgFile) :
    List (String × List String) :=
  images.foldl
    (fun d f => dictInsert d f.name (readtext (imageBytes convert f))) []

-- When the key is absent from the accumulated dict, `dictInsert` appends.
theorem dictInsert_absent (d : List (String × List String)) (k : String)
    (v : List String) (h : ∀ p ∈ d, p.fst ≠ k) :
    dictInsert d k v = d ++ [(k, v)] := by
  have : d.any (fun p => p.fst = k) = false := by
    simp only [List.any_eq_false, decide_eq_true_eq]
    exact h
  simp [dictInsert, this]

-- With pairwise-distinct image names, the fold reduces to a plain map
-- appended after the accumulator, whenever the accumulator's keys avoid
-- the incoming names.
theorem extract_fold_append (convert : List Nat → List Nat)
    (readtext : List Nat → List String) :
    ∀ (images : List ImgFile) (d : List (String × List String)),
      (images.map ImgFile.name).Nodup →
      (∀ p ∈ d, ∀ f ∈ images, p.fst ≠ f.name) →
      images.foldl
          (fun d f => dictInsert d f.name (readtext (imageBytes convert f))) d
        = d ++ images.map
            (fun f => (f.name, readtext (imageBytes convert f))) := by
  intro images
  induction images with
  | nil => intro d _ _; simp
  | cons f rest ih =>
    intro d hnd hdisj
    have hstep :
        dictInsert d f.name (readtext (imageBytes convert f))
          = d ++ [(f.name, readtext (imageBytes convert f))] :=
      dictInsert_absent d f.name _
        (fun p hp => hdisj p hp f (List.mem_cons_self f rest))
    have hnd0 : (f.name :: rest.map ImgFile.name).Nodup := by simpa using hnd
    have hnd' : (rest.map ImgFile.name).Nodup := (List.nodup_cons.mp hnd0).2
    have hfname : f.name ∉ rest.map ImgFile.name := (List.nodup_cons.mp hnd0).1
    have hdisj' :
        ∀ p ∈ d ++ [(f.name, readtext (imageBytes convert f))],
          ∀ g ∈ rest, p.fst ≠ g.name := by
      intro p hp g hg
      rcases List.mem_append.mp hp with hpd | hpf
      · exact hdisj p hpd g (List.mem_cons_of_mem f hg)
      · have hpe : p = (f.name, readtext (imageBytes convert f)) := by
          simpa using hpf
        subst hpe
        intro he
        simp only at he
        exact hfname (he ▸ List.mem_map_of_mem ImgFile.name hg)
    calc (f :: rest).foldl
            (fun d g => dictInsert d g.name (readtext (imageBytes convert g))) d
        = rest.foldl
            (fun d g => dictInsert d g.name (readtext (imageBytes convert g)))
            (d ++ [(f.name, readtext (imageBytes convert f))]) := by
          simp [List.foldl_cons, hstep]
      _ = (d ++ [(f.name, readtext (imageBytes convert f))])
            ++ rest.map (fun g => (g.name, readtext (imageBytes convert g))) :=
          ih _ hnd' hdisj'
      _ = d ++ (f :: rest).map
            (fun g => (g.name, readtext (imageBytes convert g))) := by
          simp

/-- C9: for a batch of images with pairwise-distinct names,
`extract_text_from_images` returns the dict whose keys are exactly the
submitted image names in submission order, each mapped to the ordered
line list that `readtext` returned for that image's bytes. -/
theorem extract_text_shape (convert : List Nat → List Nat)
    (readtext : List Nat → List String) (images : List ImgFile)
    (hnd : (images.map ImgFile.name).Nodup) :
    extract_text_from_imagesS convert readtext images
      = images.map (fun f => (f.name, readtext (imageBytes convert f))) := by
  have h := extract_fold_append convert readtext images [] hnd
    (by intro p hp; cases hp)
  simpa [extract_text_from_imagesS] using h

/-- Witness for C9: a concrete two-image batch (one HEIC, one PNG) with
distinct names yields exactly the two entries in submission order, the
HEIC one computed on the converted bytes. -/
theorem extract_text_shape_witness :
    extract_text_from_imagesS (fun b => 0 :: b) (fun b => [toString b.length])
        [⟨"a.png", "image/png", [1, 2]⟩, ⟨"b.heic", "image/heic", [3]⟩]
      = [("a.png", [toString 2]), ("b.heic", [toString 2])] := by
  have h := extract_text_shape (fun b => 0 :: b)
    (fun b => [toString b.length])
    [⟨"a.png", "image/png", [1, 2]⟩, ⟨"b.heic", "image/heic", [3]⟩]
    (by decide)
  simpa [imageBytes] using h

/-!
Upload submission.  In `main` (lines 174-186) the upload branch runs only
while `download_complete` is false; `if uploaded_files:` skips empty (or
absent) submissions silently; extraction runs only when
`extracted_text is None`; and a batch of more than 10 files produces
`st.error("You can upload a maximum of 10 images.")` with no extraction.
There is no error path for zero files anywhere in the code.
-/

/-- The `st.session_state` keys `main` manipulates around upload. -/
structure Session where
  extracted_text : Option (List (String × List String))
  file_path : Option String
  download_complete : Bool
deriving DecidableEq, Repr

/-- What one run of the upload branch surfaces to the user. -/
inductive UploadOutcome where
  | noAction : UploadOutcome
  | tooManyError : UploadOutcome
  | extractionDone : UploadOutcome
deriving DecidableEq, Repr

/-- The upload branch of `main` (lines 174-186) as a function of the
submitted file list and the session state: skipped when a download has
completed, when no files were submitted, or when extraction already ran;
more than 10 files surfaces the error and mutates nothing; otherwise the
extraction result is stored. -/
def uploadStep (convert : List Nat → List Nat)
    (readtext : List Nat → List String) (files : List ImgFile)
    (s : Session) : UploadOutcome × Session :=
  if s.download_complete then (.noAction, s)
  else if files.isEmpty then (.noAction, s)
  else if s.extracted_text.isSome then (.noAction, s)
  else if files.length > 10 then (.tooManyError, s)
  else
    (.extractionDone,
     { s with extracted_text := some (extract_text_from_imagesS convert readtext files) })

/-- Identity byte conversion, used to instantiate the opaque HEIC
collaborator in closed statements. -/
def idBytes : List Nat → List Nat := fun b => b

/-- A concrete recognizer returning no lines, used to instantiate the
opaque `readtext` collaborator in closed statements. -/
def emptyReader : List Nat → List String := fun _ => []

/-- C7 counterexample: submitting zero files in state `AwaitingUpload`
(`extracted_text = none`, `download_complete = false`) produces NO error —
the branch is skipped silently (`noAction`) and the state is unchanged —
whereas the claim says it fails with a `NoFiles` error surfaced to the
user; no such error exists in the code. -/
theorem upload_zero_files_no_error :
    uploadStep idBytes emptyReader [] ⟨none, none, false⟩
        = (.noAction, ⟨none, none, false⟩) ∧
    UploadOutcome.noAction ≠ UploadOutcome.tooManyError := by
  decide

/-- C7 (amended): in state `AwaitingUpload` (`extracted_text = none`,
`download_complete = false`), submitting more than 10 files surfaces the
too-many-images error immediately with no state mutation (no extraction
runs, `extracted_text` stays unset); submitting zero files is silently
ignored — no error and no state mutation. -/
theorem upload_validation (convert : List Nat → List Nat)
    (readtext : List Nat → List String) (files : List ImgFile)
    (s : Session) (hdl : s.download_complete = false)
    (hex : s.extracted_text = none) :
    (files.length > 10 →
      uploadStep convert readtext files s = (.tooManyError, s)) ∧
    (files = [] →
      uploadStep convert readtext files s = (.noAction, s)) := by
  constructor
  · intro hlen
    have hne : files.isEmpty = false := by
      cases files with
      | nil => simp at hlen
      | cons f rest => rfl
    simp [uploadStep, hdl, hne, hex, hlen]
  · intro he
    subst he
    simp [uploadStep, hdl]

/-- Witness for C7 (amended): 11 identical files are rejected with the
too-many error and the session is unchanged, and an empty submission is a
silent no-op. -/
theorem upload_validation_witness :
    uploadStep idBytes emptyReader
        (List.replicate 11 ⟨"a.png", "image/png", []⟩) ⟨none, none, false⟩
      = (.tooManyError, ⟨none, none, false⟩) ∧
    uploadStep idBytes emptyReader [] ⟨none, none, false⟩
      = (.noAction, ⟨none, none, false⟩) :=
  ⟨(upload_validation idBytes emptyReader
      (List.replicate 11 ⟨"a.png", "image/png", []⟩) ⟨none, none, false⟩
      rfl rfl).1 (by decide),
   (upload_validation idBytes emptyReader [] ⟨none, none, false⟩
      rfl rfl).2 rfl⟩

/-!
Failure propagation.  `acquire_lock` wraps its body in
`try: ... except Exception as e: logging.error(...); raise` — any error
(in particular `datetime.fromisoformat` failing on a corrupt lock file)
is logged and RE-RAISED to the caller, not converted into `False`.
`release_lock` has the same shape.  We embed this with an `Except` model
over the raw lock-file content: timestamps are stored as their decimal
string and a content that does not parse corresponds to an isoformat
string `fromisoformat` rejects.
-/

/-- Parsing of the lock-file content, modelling
`datetime.fromisoformat(lock_file.read().strip())`: we encode timestamps
as their decimal digit string, so a nonempty all-digit string parses to
its value and anything else is the content `fromisoformat` rejects by
raising `ValueError`. -/
def parseTimestamp (s : String) : Option Nat :=
  if s.data ≠ [] ∧ s.data.all (fun c => c.isDigit) then
    some (s.data.foldl (fun n c => n * 10 + (c.toNat - 48)) 0)
  else none

/-- Raw-content embedding of `acquire_lock` (lines 55-74): the lock file
holds a string; reading parses it as a timestamp, and a parse failure is
the raised `ValueError`, which the `except` clause logs and re-raises
(`Except.error`).  On the parsed value the behaviour is `acquire_lockS`. -/
def acquire_lockE (content : Option String) (now : Nat) :
    Except String (Bool × Option String) :=
  match content with
  | none => Except.ok (true, some (toString now))
  | some s =>
    match parseTimestamp s with
    | none => Except.error "ValueError: invalid timestamp in lock file"
    | some t =>
      if now > t + LOCK_TIMEOUT then Except.ok (true, some (toString now))
      else Except.ok (false, some s)

/-- C8 counterexample: with a corrupt lock file (content `"corrupt"`,
which does not parse as a timestamp) `acquire_lock` at time 7 raises —
the exception is logged and re-raised to the caller — instead of
reporting `Denied` (`False`) as the claim requires. -/
theorem acquire_lock_corrupt_store_raises :
    acquire_lockE (some "corrupt") 7
        = Except.error "ValueError: invalid timestamp in lock file" ∧
    (acquire_lockE (some "corrupt") 7).isOk = false := by
  constructor
  · simp [acquire_lockE, parseTimestamp]
  · simp [acquire_lockE, parseTimestamp, Except.isOk, Except.toBool]

/-- C8 (amended): whenever the lock file's content fails to parse as a
timestamp, `acquire_lock` propagates the raised parse error to its caller
(the `except` clause logs and re-raises); it never converts a corrupt
store into a `Denied` result, i.e. the code fails open by exception, not
closed.  (`release_lock` likewise re-raises any file-system error and has
no `NotHolder` outcome at all; `load_queue` does not even catch JSON
parse errors.) -/
theorem acquire_lock_corrupt_store_propagates (s : String) (now : Nat)
    (hbad : parseTimestamp s = none) :
    acquire_lockE (some s) now
      = Except.error "ValueError: invalid timestamp in lock file" := by
  simp [acquire_lockE, hbad]

/-- Witness for C8 (amended): the content `"corrupt"` does not parse and
the acquire at time 7 propagates the error. -/
theorem acquire_lock_corrupt_store_propagates_witness :
    acquire_lockE (some "corrupt") 7
      = Except.error "ValueError: invalid timestamp in lock file" :=
  acquire_lock_corrupt_store_propagates "corrupt" 7
    (by simp [parseTimestamp])

/-!
Totality and idempotence of `release_lock` at its interface.  The body
guards `os.remove` behind `os.path.exists`, so removing a missing file —
which WOULD raise `FileNotFoundError` — is never attempted; the `except`
clause never fires in the two-call scenario.
-/

/-- `os.remove` on the lock file: deletes an existing file, raises
`FileNotFoundError` on a missing one. -/
def os_removeE (f : Option String) : Except String (Option String) :=
  match f with
  | some _ => Except.ok none
  | none => Except.error "FileNotFoundError"

/-- Raw-content embedding of `release_lock` (lines 76-83): remove the
lock file only if it exists; otherwise do nothing.  Any raised error
would be re-raised, but the exists-guard prevents the missing-file
error. -/
def release_lockE (f : Option String) : Except String (Option String) :=
  if f.isSome then os_removeE f else Except.ok f

/-- C10: `release_lock` is total and idempotent at its interface: called
with no lock file present it succeeds as a no-op without raising, it
always succeeds leaving no lock file, and running it twice from any
state equals running it once (both end with no lock file and no
exception). -/
theorem release_lock_total_idempotent :
    release_lockE none = Except.ok none ∧
    (∀ f : Option String, release_lockE f = Except.ok none) ∧
    (∀ f : Option String,
      (release_lockE f).bind release_lockE = release_lockE f) := by
  refine ⟨rfl, ?_, ?_⟩
  · intro f
    cases f <;> rfl
  · intro f
    cases f <;> rfl
